import Mathlib

/-!
Shallow embedding of `src/send_msg.py` (class `SendMsg`), the encrypted-send
workflow of the xmpp-python-omemo repository.

The script's only logic is the method `SendMsg.encrypted_send`: a
`while True` loop around one call to `encrypt_message`, with exception
handlers for `UndecidedException`, `EncryptionPrepareException`,
`IqError`/`IqTimeout` and a bare `Exception`, and a `finally:
self.disconnect()` clause attached to the try statement *inside* the loop
body.  The helper `SendMsg.plain_send` builds a plaintext chat stanza and
sends it.

The embedding models one call to `encrypted_send` as a fold over the
sequence of outcomes that successive `encrypt_message` calls produce
(success, or one of the caught exception classes).  Every observable side
effect of the Python code — each `encrypt_message` call with its
arguments, each `trust` call, each invocation of `plain_send` (recording
whether the coroutine was awaited: lines 129 and 136 of the source invoke
it without `await`, line 139 with), each stanza dispatch, and each
`disconnect` — is recorded, in program order, in an event list.

Python semantics encoded faithfully:
* the `finally` clause runs at the end of every loop iteration (normal
  completion, `return`, handled exception, re-raise alike), so
  `disconnect` is invoked once per iteration;
* calling the coroutine function `plain_send` without `await` creates a
  coroutine object that never runs, so no advisory stanza is dispatched on
  those paths;
* `expect_problems.setdefault(jid, []).append(device)` appends without
  deduplication.
-/

/-- A bare JID, as produced by `JID(...)` in the source. -/
structure Jid where
  addr : String
deriving DecidableEq, Repr

/-- One sub-error carried by an `EncryptionPrepareException` (`exn.errors`).
`missingBundle` is the `MissingBundleException` case, carrying
`error.bare_jid` and `error.device`; every other exception class in the
list is `otherError`. -/
inductive PrepError where
  | missingBundle (bare_jid : String) (device : Nat)
  | otherError (desc : String)
deriving DecidableEq, Repr

/-- The outcome of one call to `self['xep_0384'].encrypt_message(...)`:
either it returns an `<encrypted/>` payload, or it raises one of the
exception classes handled at lines 107-140 of the source. -/
inductive EncOutcome where
  | ok (envelope : String)
  | undecided (bare_jid : String) (device : Nat) (ik : String)
  | prepareFailed (errors : List PrepError)
  | iqFailure (desc : String)
  | otherExn (desc : String)
deriving DecidableEq, Repr

/-- A message stanza, with the fields the script sets: `mto`/`mtype` from
`make_message`, `body` (set by `plain_send`), the two `eme` sub-fields
(set by `encrypted_send`), and the appended `<encrypted/>` payload. -/
structure Stanza where
  mto : String
  mtype : String
  body : Option String
  eme_namespace : Option String
  eme_name : Option String
  encrypted : Option String
deriving DecidableEq, Repr

/-- `self.make_message(mto=..., mtype=...)`: a fresh stanza with only the
addressing fields set. -/
def make_message (mto : String) (mtype : String) : Stanza :=
  { mto := mto, mtype := mtype, body := none,
    eme_namespace := none, eme_name := none, encrypted := none }

/-- One observable side effect of a run, in program order.
`plainSendInvoked` records a call of the coroutine function `plain_send`
together with whether the call site awaited it; a non-awaited call
dispatches nothing. -/
inductive Event where
  | encryptCall (plaintext : String) (recipients : List Jid)
      (expect_problems : List (Jid × List Nat))
  | trustCall (bare_jid : String) (device : Nat) (ik : String)
  | plainSendInvoked (body : String) (awaited : Bool)
  | stanzaSend (s : Stanza)
  | disconnect
deriving DecidableEq, Repr

/-- How one call to `encrypted_send` ends: `sent` is the `return
msg.send()` at line 106 (carrying the dispatched stanza); `aborted` is the
`return None` at line 137 on `IqError`/`IqTimeout`; `fatal` is the
re-`raise` at line 140; `exhausted` marks a run whose outcome sequence
ended while the loop would still continue (the run is not over). -/
inductive SendResult where
  | sent (s : Stanza)
  | aborted
  | fatal (desc : String)
  | exhausted
deriving DecidableEq, Repr

/-- The observable output of one `encrypted_send` run: its result, its
event list, and the final value of the local `expect_problems` dict. -/
structure RunOut where
  result : SendResult
  events : List Event
  expect_problems : List (Jid × List Nat)
deriving DecidableEq, Repr

/-- The per-instance state set by `SendMsg.__init__`: `self.«to»` and
`self.msg`.  (`jid` and `password` never reach the send workflow.) -/
structure SendMsg where
  «to» : String
  msg : String
deriving DecidableEq, Repr

/-- `SendMsg.eme_ns` (line 41 of the source). -/
def eme_ns : String := "eu.siacs.conversations.axolotl"

/-- The advisory text of line 129: `'Could not find keys for device "%d"
of recipient "%s". Skipping.' % (error.device, error.bare_jid)`. -/
def missingBundleNotice (device : Nat) (bare_jid : String) : String :=
  "Could not find keys for device \"" ++ toString device ++
    "\" of recipient \"" ++ bare_jid ++ "\". Skipping."

/-- The advisory text of line 136, with `%r` of the exception rendered as
an opaque string. -/
def fetchErrorNotice (desc : String) : String :=
  "An error occured while fetching information on a recipient.\n" ++ desc

/-- The advisory text of line 139, likewise. -/
def encryptErrorNotice (desc : String) : String :=
  "An error occured while attempting to encrypt.\n" ++ desc

/-- `expect_problems.setdefault(JID(bare_jid), []).append(device)`
(lines 132-134): the dict is an insertion-ordered association list; the
device is appended to the existing list (no deduplication). -/
def setdefaultAppend (m : List (Jid × List Nat)) (j : Jid) (d : Nat) :
    List (Jid × List Nat) :=
  match m with
  | [] => [(j, [d])]
  | (k, ds) :: rest =>
      if k = j then (k, ds ++ [d]) :: rest
      else (k, ds) :: setdefaultAppend rest j d

/-- The `expect_problems` updates performed by the `for error in
exn.errors` loop (lines 120-134): one `setdefault`/`append` per
`MissingBundleException`, nothing for other sub-errors. -/
def updateProblems (m : List (Jid × List Nat)) :
    List PrepError → List (Jid × List Nat)
  | [] => m
  | PrepError.missingBundle b d :: rest =>
      updateProblems (setdefaultAppend m (Jid.mk b) d) rest
  | PrepError.otherError _ :: rest => updateProblems m rest

/-- The advisory invocations performed by the same `for` loop: line 129
calls `self.plain_send(...)` WITHOUT `await`, once per
`MissingBundleException`, in list order. -/
def prepAdvisories : List PrepError → List Event
  | [] => []
  | PrepError.missingBundle b d :: rest =>
      Event.plainSendInvoked (missingBundleNotice d b) false ::
        prepAdvisories rest
  | PrepError.otherError _ :: rest => prepAdvisories rest

/-- `SendMsg.plain_send(message)` (lines 72-79), as run when awaited: it
builds one fresh chat stanza to `self.«to»`, sets its body to the argument,
dispatches it, and returns the send result (modelled as the dispatched
stanza itself).  The event list holds the one dispatch it performs. -/
def plain_send (self : SendMsg) (message : String) : Stanza × List Event :=
  let msg := make_message self.«to» "chat"
  let msg := { msg with body := some message }
  (msg, [Event.stanzaSend msg])

/-- The `while True` loop of `encrypted_send` (lines 90-143), as a fold
over the outcomes of successive `encrypt_message` calls.  `base` is the
stanza prepared at lines 84-86, `m` the current `expect_problems`.

Each iteration first records the `encrypt_message` call (line 104) with
the plaintext `self.msg`, the recipient list `[JID(self.«to»)]` rebuilt at
line 103, and the current `expect_problems`; then follows the branch the
outcome selects.  The `finally: self.disconnect()` runs at the end of
every iteration, whichever branch was taken. -/
def encryptedSendLoop (self : SendMsg) (base : Stanza)
    (m : List (Jid × List Nat)) : List EncOutcome → RunOut
  | [] => { result := SendResult.exhausted, events := [], expect_problems := m }
  | o :: rest =>
    let enc := Event.encryptCall self.msg [Jid.mk self.«to»] m
    match o with
    | EncOutcome.ok envelope =>
        let sent := { base with encrypted := some envelope }
        { result := SendResult.sent sent,
          events := [enc, Event.stanzaSend sent, Event.disconnect],
          expect_problems := m }
    | EncOutcome.undecided b d ik =>
        let r := encryptedSendLoop self base m rest
        { r with events :=
            enc :: Event.trustCall b d ik :: Event.disconnect :: r.events }
    | EncOutcome.prepareFailed errors =>
        let r := encryptedSendLoop self base (updateProblems m errors) rest
        { r with events :=
            enc :: (prepAdvisories errors ++ Event.disconnect :: r.events) }
    | EncOutcome.iqFailure desc =>
        { result := SendResult.aborted,
          events := [enc,
            Event.plainSendInvoked (fetchErrorNotice desc) false,
            Event.disconnect],
          expect_problems := m }
    | EncOutcome.otherExn desc =>
        { result := SendResult.fatal desc,
          events := [enc,
            Event.plainSendInvoked (encryptErrorNotice desc) true,
            Event.stanzaSend (plain_send self (encryptErrorNotice desc)).1,
            Event.disconnect],
          expect_problems := m }

/-- `SendMsg.encrypted_send` (lines 81-145): prepare the stanza shell with
the encryption-method annotation (`mech` is the mechanism name the
xep_0380 plugin maps `eme_ns` to), start with an empty `expect_problems`,
and run the loop against the given outcome sequence. -/
def encrypted_send (self : SendMsg) (mech : String)
    (trace : List EncOutcome) : RunOut :=
  let msg := make_message self.«to» "chat"
  let msg := { msg with eme_namespace := some eme_ns, eme_name := some mech }
  encryptedSendLoop self msg [] trace

/-- Is this event a `disconnect` call? -/
def Event.isDisconnect : Event → Bool
  | Event.disconnect => true
  | _ => false

/-- Is this event a stanza dispatch? -/
def Event.isStanzaSend : Event → Bool
  | Event.stanzaSend _ => true
  | _ => false

/-- Is this event a dispatch of an encrypted stanza (one carrying an
`<encrypted/>` payload)? -/
def Event.isEncryptedSend : Event → Bool
  | Event.stanzaSend s => s.encrypted.isSome
  | _ => false

/-- Is this event an invocation of `plain_send` (awaited or not)? -/
def Event.isAdvisoryInvocation : Event → Bool
  | Event.plainSendInvoked _ _ => true
  | _ => false

/-- Is this event an advisory that was actually dispatched (the call site
awaited the coroutine)? -/
def Event.isAdvisoryDispatched : Event → Bool
  | Event.plainSendInvoked _ awaited => awaited
  | _ => false

/-- Number of `disconnect` calls in a run's event list. -/
def countDisconnects (evs : List Event) : Nat :=
  (evs.filter Event.isDisconnect).length

/-- Number of stanza dispatches in a run's event list. -/
def countStanzaSends (evs : List Event) : Nat :=
  (evs.filter Event.isStanzaSend).length

/-- Number of encrypted-stanza dispatches in a run's event list. -/
def countEncryptedSends (evs : List Event) : Nat :=
  (evs.filter Event.isEncryptedSend).length

/-- Number of `plain_send` invocations in a run's event list. -/
def countAdvisoryInvocations (evs : List Event) : Nat :=
  (evs.filter Event.isAdvisoryInvocation).length

/-- Number of advisories actually dispatched in a run's event list. -/
def countAdvisoryDispatched (evs : List Event) : Nat :=
  (evs.filter Event.isAdvisoryDispatched).length

/-- Number of loop iterations the Python code executes on a given outcome
sequence: every outcome up to and including the first loop-exiting one
(`ok`, `iqFailure`, `otherExn`) starts an iteration. -/
def iterationsRun : List EncOutcome → Nat
  | [] => 0
  | EncOutcome.undecided _ _ _ :: rest => 1 + iterationsRun rest
  | EncOutcome.prepareFailed _ :: rest => 1 + iterationsRun rest
  | _ :: _ => 1

example :
    (encrypted_send (SendMsg.mk "r@x" "hi") "OMEMO" [EncOutcome.ok "env"]).result
      = SendResult.sent
          { mto := "r@x", mtype := "chat", body := none,
            eme_namespace := some eme_ns, eme_name := some "OMEMO",
            encrypted := some "env" } := by decide

example :
    countDisconnects (encrypted_send (SendMsg.mk "r@x" "hi") "OMEMO"
      [EncOutcome.undecided "r@x" 1 "ik", EncOutcome.ok "env"]).events = 2 := by
  decide

/-- Flatten an `expect_problems` dict into its recipient-device pairs, in
stored order. -/
def exclusionPairs : List (Jid × List Nat) → List (Jid × Nat)
  | [] => []
  | (j, ds) :: rest => ds.map (fun d => (j, d)) ++ exclusionPairs rest

/-- The recipient-device pairs of the missing-bundle sub-errors of one
`EncryptionPrepareException`, in list order. -/
def missingPairs : List PrepError → List (Jid × Nat)
  | [] => []
  | PrepError.missingBundle b d :: rest => (Jid.mk b, d) :: missingPairs rest
  | PrepError.otherError _ :: rest => missingPairs rest

/-- All missing-bundle recipient-device pairs the loop processes on a
given outcome sequence: outcomes after the first loop-exiting one are
never reached. -/
def tracePairs : List EncOutcome → List (Jid × Nat)
  | [] => []
  | EncOutcome.undecided _ _ _ :: rest => tracePairs rest
  | EncOutcome.prepareFailed errs :: rest => missingPairs errs ++ tracePairs rest
  | _ :: _ => []

/-- Did this `encrypt_message` outcome exit the loop (success, fetch
error, or unclassified failure), as opposed to the two locally recovered
signals? -/
def EncOutcome.isTerminal : EncOutcome → Bool
  | EncOutcome.ok _ => true
  | EncOutcome.iqFailure _ => true
  | EncOutcome.otherExn _ => true
  | _ => false

/-- Did the run settle (reach `Sent` or a non-trust failure), rather than
run out of modelled outcomes mid-loop? -/
def SendResult.isSettled : SendResult → Bool
  | SendResult.exhausted => false
  | _ => true

/-- Healthy-mock-provider model: the devices of the recipient whose trust
is still undecided, given the trust decisions recorded so far. -/
def pending (undecided trusted : List Nat) : List Nat :=
  undecided.filter (fun d => decide (d ∉ trusted))

/-- The outcome sequence a healthy mock provider produces: while some
undecided device remains untrusted it raises `UndecidedException` for the
first such device (and the workflow's `trust` call then records exactly
that device, extending `trusted`); once every undecided device is
trusted it yields the terminal outcome `fin`.  `fuel` bounds the
unrolling. -/
def healthyTrace (bare : String) (ik : Nat → String) (undecided : List Nat)
    (fin : EncOutcome) : List Nat → Nat → List EncOutcome
  | _, 0 => []
  | trusted, fuel + 1 =>
    match pending undecided trusted with
    | [] => [fin]
    | d :: _ =>
        EncOutcome.undecided bare d (ik d) ::
          healthyTrace bare ik undecided fin (trusted ++ [d]) fuel

/-- C2: if the first encryption attempt succeeds, the run dispatches
exactly one stanza — the prepared stanza (chat type, to the configured
recipient, carrying the encryption-method annotation) with the returned
envelope attached — invokes `disconnect` exactly once after the dispatch,
and returns the sent result. -/
theorem first_attempt_success_dispatch_once (self : SendMsg)
    (mech envelope : String) (rest : List EncOutcome) :
    encrypted_send self mech (EncOutcome.ok envelope :: rest) =
      { result := SendResult.sent
          { mto := self.«to», mtype := "chat", body := none,
            eme_namespace := some eme_ns, eme_name := some mech,
            encrypted := some envelope },
        events := [Event.encryptCall self.msg [Jid.mk self.«to»] [],
          Event.stanzaSend
            { mto := self.«to», mtype := "chat", body := none,
              eme_namespace := some eme_ns, eme_name := some mech,
              encrypted := some envelope },
          Event.disconnect],
        expect_problems := [] } ∧
    countStanzaSends
      (encrypted_send self mech (EncOutcome.ok envelope :: rest)).events = 1 ∧
    countDisconnects
      (encrypted_send self mech (EncOutcome.ok envelope :: rest)).events = 1 :=
  ⟨rfl, rfl, rfl⟩

/-- C10: for every string argument, `plain_send` builds exactly one chat
stanza addressed to the configured recipient with that string as body,
dispatches exactly that stanza, and returns the send result. -/
theorem plain_send_builds_and_dispatches (self : SendMsg) (message : String) :
    plain_send self message =
      ({ mto := self.«to», mtype := "chat", body := some message,
         eme_namespace := none, eme_name := none, encrypted := none },
       [Event.stanzaSend
         { mto := self.«to», mtype := "chat", body := some message,
           eme_namespace := none, eme_name := none, encrypted := none }]) ∧
    countStanzaSends (plain_send self message).2 = 1 :=
  ⟨rfl, rfl⟩

/-- C1 counterexample: a run whose first attempt raises
`UndecidedException` and whose retry succeeds completes normally but
invokes `disconnect` twice, not once — the `finally` clause sits inside
the `while` body and runs at the end of every iteration. -/
theorem disconnect_twice_on_retry_cex :
    countDisconnects (encrypted_send (SendMsg.mk "r@x" "hi") "OMEMO"
      [EncOutcome.undecided "r@x" 1 "ik", EncOutcome.ok "env"]).events = 2 ∧
    (encrypted_send (SendMsg.mk "r@x" "hi") "OMEMO"
      [EncOutcome.undecided "r@x" 1 "ik", EncOutcome.ok "env"]).result =
      SendResult.sent
        { mto := "r@x", mtype := "chat", body := none,
          eme_namespace := some eme_ns, eme_name := some "OMEMO",
          encrypted := some "env" } :=
  ⟨rfl, rfl⟩

/-- C3 (claim is right, code is wrong): on an `IqError`/`IqTimeout` during
the first attempt the run terminates the session exactly once, dispatches
no encrypted stanza, and returns the aborted result — but the advisory of
line 136 is a coroutine invoked WITHOUT `await`, so zero advisory notices
are actually dispatched, against the claimed exactly one. -/
theorem fetch_error_first_attempt_eval :
    encrypted_send (SendMsg.mk "r@x" "m") "OMEMO"
        [EncOutcome.iqFailure "IqTimeout"] =
      { result := SendResult.aborted,
        events := [Event.encryptCall "m" [Jid.mk "r@x"] [],
          Event.plainSendInvoked (fetchErrorNotice "IqTimeout") false,
          Event.disconnect],
        expect_problems := [] } ∧
    countAdvisoryInvocations (encrypted_send (SendMsg.mk "r@x" "m") "OMEMO"
      [EncOutcome.iqFailure "IqTimeout"]).events = 1 ∧
    countAdvisoryDispatched (encrypted_send (SendMsg.mk "r@x" "m") "OMEMO"
      [EncOutcome.iqFailure "IqTimeout"]).events = 0 ∧
    countDisconnects (encrypted_send (SendMsg.mk "r@x" "m") "OMEMO"
      [EncOutcome.iqFailure "IqTimeout"]).events = 1 ∧
    countEncryptedSends (encrypted_send (SendMsg.mk "r@x" "m") "OMEMO"
      [EncOutcome.iqFailure "IqTimeout"]).events = 0 :=
  ⟨rfl, rfl, rfl, rfl, rfl⟩

/-- C6 (claim is right, code is wrong): on a prepare-failed signal whose
sub-error is a missing key bundle, the run does add the recipient-device
pair to the exclusion set and does retry with the updated set (the second
`encrypt_message` call receives it), but the advisory of line 129 is a
coroutine invoked WITHOUT `await`, so it is never dispatched to the
user-facing channel. -/
theorem missing_bundle_advisory_eval :
    (encrypted_send (SendMsg.mk "r@x" "m") "OMEMO"
        [EncOutcome.prepareFailed [PrepError.missingBundle "r@x" 5],
         EncOutcome.ok "env"]).events =
      [Event.encryptCall "m" [Jid.mk "r@x"] [],
       Event.plainSendInvoked (missingBundleNotice 5 "r@x") false,
       Event.disconnect,
       Event.encryptCall "m" [Jid.mk "r@x"] [(Jid.mk "r@x", [5])],
       Event.stanzaSend
         { mto := "r@x", mtype := "chat", body := none,
           eme_namespace := some eme_ns, eme_name := some "OMEMO",
           encrypted := some "env" },
       Event.disconnect] ∧
    countAdvisoryInvocations (encrypted_send (SendMsg.mk "r@x" "m") "OMEMO"
      [EncOutcome.prepareFailed [PrepError.missingBundle "r@x" 5],
       EncOutcome.ok "env"]).events = 1 ∧
    countAdvisoryDispatched (encrypted_send (SendMsg.mk "r@x" "m") "OMEMO"
      [EncOutcome.prepareFailed [PrepError.missingBundle "r@x" 5],
       EncOutcome.ok "env"]).events = 0 ∧
    (encrypted_send (SendMsg.mk "r@x" "m") "OMEMO"
      [EncOutcome.prepareFailed [PrepError.missingBundle "r@x" 5],
       EncOutcome.ok "env"]).result =
      SendResult.sent
        { mto := "r@x", mtype := "chat", body := none,
          eme_namespace := some eme_ns, eme_name := some "OMEMO",
          encrypted := some "env" } :=
  ⟨rfl, rfl, rfl, rfl⟩

/-- C7 counterexample: a prepare-failed signal whose only sub-error is NOT
a missing bundle produces no advisory invocation at all — the `for` loop
at lines 120-134 skips every non-`MissingBundleException` — yet the
session is disconnected (twice, once per iteration); so this non-recovered
error kind does not "always produce a user-visible advisory message before
the session is torn down". -/
theorem prepare_other_no_advisory_cex :
    countAdvisoryInvocations (encrypted_send (SendMsg.mk "r@x" "m") "OMEMO"
      [EncOutcome.prepareFailed [PrepError.otherError "boom"],
       EncOutcome.ok "env"]).events = 0 ∧
    countDisconnects (encrypted_send (SendMsg.mk "r@x" "m") "OMEMO"
      [EncOutcome.prepareFailed [PrepError.otherError "boom"],
       EncOutcome.ok "env"]).events = 2 ∧
    (encrypted_send (SendMsg.mk "r@x" "m") "OMEMO"
      [EncOutcome.prepareFailed [PrepError.otherError "boom"],
       EncOutcome.ok "env"]).result =
      SendResult.sent
        { mto := "r@x", mtype := "chat", body := none,
          eme_namespace := some eme_ns, eme_name := some "OMEMO",
          encrypted := some "env" } :=
  ⟨rfl, rfl, rfl⟩

/-- C7 (amended): a prepare-failed signal with a non-missing-bundle
sub-error is silently ignored — no advisory, the loop just retries (after
the per-iteration disconnect); a request timeout or error invokes the
advisory helper exactly once but without awaiting it (nothing dispatched)
and aborts; only an unclassified failure actually dispatches its advisory
stanza before the disconnect and the re-raise. -/
theorem non_recovered_advisory_behavior (self : SendMsg) (base : Stanza)
    (m : List (Jid × List Nat)) (s : String) (rest : List EncOutcome) :
    (encryptedSendLoop self base m
        (EncOutcome.prepareFailed [PrepError.otherError s] :: rest) =
      { result := (encryptedSendLoop self base m rest).result,
        events := Event.encryptCall self.msg [Jid.mk self.«to»] m ::
          Event.disconnect :: (encryptedSendLoop self base m rest).events,
        expect_problems :=
          (encryptedSendLoop self base m rest).expect_problems }) ∧
    (encryptedSendLoop self base m (EncOutcome.iqFailure s :: rest) =
      { result := SendResult.aborted,
        events := [Event.encryptCall self.msg [Jid.mk self.«to»] m,
          Event.plainSendInvoked (fetchErrorNotice s) false,
          Event.disconnect],
        expect_problems := m }) ∧
    (encryptedSendLoop self base m (EncOutcome.otherExn s :: rest) =
      { result := SendResult.fatal s,
        events := [Event.encryptCall self.msg [Jid.mk self.«to»] m,
          Event.plainSendInvoked (encryptErrorNotice s) true,
          Event.stanzaSend (plain_send self (encryptErrorNotice s)).1,
          Event.disconnect],
        expect_problems := m }) :=
  ⟨rfl, rfl, rfl⟩

/-- C5: an `UndecidedException` carrying a bare JID, device and identity
key makes the workflow record a trust decision for exactly that device and
key and retry the loop unchanged otherwise; in the two-device scenario
(device A trusted, device B undecided) the first attempt raises the signal
for B, trust for B is recorded, the retry succeeds, and exactly one stanza
is dispatched. -/
theorem undecided_trust_retry_scenario :
    (∀ (self : SendMsg) (base : Stanza) (m : List (Jid × List Nat))
        (b : String) (d : Nat) (ik : String) (rest : List EncOutcome),
      encryptedSendLoop self base m (EncOutcome.undecided b d ik :: rest) =
        { result := (encryptedSendLoop self base m rest).result,
          events := Event.encryptCall self.msg [Jid.mk self.«to»] m ::
            Event.trustCall b d ik :: Event.disconnect ::
            (encryptedSendLoop self base m rest).events,
          expect_problems :=
            (encryptedSendLoop self base m rest).expect_problems }) ∧
    (encrypted_send (SendMsg.mk "r@x" "m") "OMEMO"
        [EncOutcome.undecided "r@x" 2 "ikB", EncOutcome.ok "env"]).events =
      [Event.encryptCall "m" [Jid.mk "r@x"] [],
       Event.trustCall "r@x" 2 "ikB",
       Event.disconnect,
       Event.encryptCall "m" [Jid.mk "r@x"] [],
       Event.stanzaSend
         { mto := "r@x", mtype := "chat", body := none,
           eme_namespace := some eme_ns, eme_name := some "OMEMO",
           encrypted := some "env" },
       Event.disconnect] ∧
    (encrypted_send (SendMsg.mk "r@x" "m") "OMEMO"
        [EncOutcome.undecided "r@x" 2 "ikB", EncOutcome.ok "env"]).result =
      SendResult.sent
        { mto := "r@x", mtype := "chat", body := none,
          eme_namespace := some eme_ns, eme_name := some "OMEMO",
          encrypted := some "env" } ∧
    countStanzaSends (encrypted_send (SendMsg.mk "r@x" "m") "OMEMO"
      [EncOutcome.undecided "r@x" 2 "ikB", EncOutcome.ok "env"]).events = 1 :=
  ⟨fun _ _ _ _ _ _ _ => rfl, rfl, rfl, rfl⟩

/-- C4 counterexample: when the same device is reported missing on two
successive attempts, `setdefault(...).append(...)` appends it again — the
exclusion set passed to the third attempt carries the duplicated pair, so
the exclusion set does NOT stay duplicate-free across retries. -/
theorem exclusion_duplicate_cex :
    (encrypted_send (SendMsg.mk "r@x" "m") "OMEMO"
      [EncOutcome.prepareFailed [PrepError.missingBundle "r@x" 7],
       EncOutcome.prepareFailed [PrepError.missingBundle "r@x" 7],
       EncOutcome.ok "env"]).expect_problems = [(Jid.mk "r@x", [7, 7])] ∧
    exclusionPairs [(Jid.mk "r@x", [7, 7])] =
      [(Jid.mk "r@x", 7), (Jid.mk "r@x", 7)] ∧
    ¬ List.Nodup (exclusionPairs [(Jid.mk "r@x", [7, 7])]) ∧
    Event.encryptCall "m" [Jid.mk "r@x"] [(Jid.mk "r@x", [7, 7])] ∈
      (encrypted_send (SendMsg.mk "r@x" "m") "OMEMO"
        [EncOutcome.prepareFailed [PrepError.missingBundle "r@x" 7],
         EncOutcome.prepareFailed [PrepError.missingBundle "r@x" 7],
         EncOutcome.ok "env"]).events :=
  ⟨rfl, rfl, by decide, by decide⟩

theorem prepAdvisories_no_disconnect (errs : List PrepError) :
    (prepAdvisories errs).filter Event.isDisconnect = [] := by
  induction errs with
  | nil => rfl
  | cons e rest ih =>
      cases e <;>
        simp [prepAdvisories, List.filter_cons, Event.isDisconnect, ih]

theorem countDisconnects_loop (self : SendMsg) (base : Stanza) :
    ∀ (trace : List EncOutcome) (m : List (Jid × List Nat)),
      countDisconnects (encryptedSendLoop self base m trace).events =
        iterationsRun trace := by
  intro trace
  induction trace with
  | nil => intro m; rfl
  | cons o rest ih =>
      intro m
      cases o with
      | ok envelope => rfl
      | undecided b d ik =>
          simp [encryptedSendLoop, iterationsRun, countDisconnects,
            List.filter_cons, Event.isDisconnect]
          have h := ih m
          simp [countDisconnects] at h
          omega
      | prepareFailed errs =>
          simp [encryptedSendLoop, iterationsRun, countDisconnects,
            List.filter_cons, List.filter_append, Event.isDisconnect,
            prepAdvisories_no_disconnect]
          have h := ih (updateProblems m errs)
          simp [countDisconnects] at h
          omega
      | iqFailure s => rfl
      | otherExn s => rfl

/-- C1 (amended): the cleanup clause does run on every exit path, but it
sits inside the loop body, so `disconnect` is invoked once per loop
iteration — exactly once per run only when the first attempt already ends
the loop; a run with n recoverable retries invokes it n + 1 times. -/
theorem disconnect_once_per_iteration (self : SendMsg) (mech : String)
    (trace : List EncOutcome) :
    countDisconnects (encrypted_send self mech trace).events =
      iterationsRun trace :=
  countDisconnects_loop self _ trace []

theorem exclusionPairs_setdefault_perm (m : List (Jid × List Nat))
    (j : Jid) (d : Nat) :
    List.Perm (exclusionPairs (setdefaultAppend m j d))
      (exclusionPairs m ++ [(j, d)]) := by
  induction m with
  | nil => simp [setdefaultAppend, exclusionPairs]
  | cons kd rest ih =>
      obtain ⟨k, ds⟩ := kd
      by_cases hk : k = j
      · subst hk
        simp only [setdefaultAppend, if_pos rfl, exclusionPairs,
          List.map_append, List.map_cons, List.map_nil, List.append_assoc]
        exact List.Perm.append_left _ (List.perm_append_comm)
      · simp only [setdefaultAppend, if_neg hk, exclusionPairs,
          List.append_assoc]
        exact List.Perm.append_left _ ih

theorem exclusionPairs_update_perm (errs : List PrepError) :
    ∀ m : List (Jid × List Nat),
      List.Perm (exclusionPairs (updateProblems m errs))
        (exclusionPairs m ++ missingPairs errs) := by
  induction errs with
  | nil => intro m; simp [updateProblems, missingPairs]
  | cons e rest ih =>
      intro m
      cases e with
      | missingBundle b d =>
          have h1 := ih (setdefaultAppend m (Jid.mk b) d)
          have h2 := (exclusionPairs_setdefault_perm m (Jid.mk b) d).append_right
            (missingPairs rest)
          have h3 := h1.trans h2
          simpa [updateProblems, missingPairs, List.append_assoc] using h3
      | otherError s => simpa [updateProblems, missingPairs] using ih m

theorem exclusionPairs_loop_perm (self : SendMsg) (base : Stanza) :
    ∀ (trace : List EncOutcome) (m : List (Jid × List Nat)),
      List.Perm
        (exclusionPairs (encryptedSendLoop self base m trace).expect_problems)
        (exclusionPairs m ++ tracePairs trace) := by
  intro trace
  induction trace with
  | nil => intro m; simp [encryptedSendLoop, tracePairs]
  | cons o rest ih =>
      intro m
      cases o with
      | ok envelope => simp [encryptedSendLoop, tracePairs]
      | undecided b d ik => simpa [encryptedSendLoop, tracePairs] using ih m
      | prepareFailed errs =>
          have h1 := ih (updateProblems m errs)
          have h2 := (exclusionPairs_update_perm errs m).append_right
            (tracePairs rest)
          have h3 := h1.trans h2
          simpa [encryptedSendLoop, tracePairs, List.append_assoc] using h3
      | iqFailure s => simp [encryptedSendLoop, tracePairs]
      | otherExn s => simp [encryptedSendLoop, tracePairs]

/-- C4 (amended): the recipient-device pairs of the final exclusion set
are, up to the grouping-by-recipient order of the dict, exactly the
missing-bundle reports the loop processed — one appended entry per report.
Hence there is exactly one entry per failing device, and no duplicates,
precisely when no device is reported missing on more than one attempt; a
device reported again is appended again (the code never deduplicates, as
the counterexample shows). -/
theorem exclusion_count_eq_reports (self : SendMsg) (mech : String)
    (trace : List EncOutcome) :
    List.Perm
      (exclusionPairs (encrypted_send self mech trace).expect_problems)
      (tracePairs trace) := by
  simpa [encrypted_send, exclusionPairs] using
    exclusionPairs_loop_perm self
      { make_message self.«to» "chat" with
          eme_namespace := some eme_ns, eme_name := some mech } trace []

theorem encryptCall_not_mem_prepAdvisories (errs : List PrepError)
    (m : String) (r : List Jid) (ep : List (Jid × List Nat)) :
    Event.encryptCall m r ep ∉ prepAdvisories errs := by
  induction errs with
  | nil => simp [prepAdvisories]
  | cons e rest ih => cases e <;> simp [prepAdvisories, ih]

theorem encryptCall_args_loop (self : SendMsg) (base : Stanza) :
    ∀ (trace : List EncOutcome) (mp : List (Jid × List Nat))
      (m : String) (r : List Jid) (ep : List (Jid × List Nat)),
      Event.encryptCall m r ep ∈ (encryptedSendLoop self base mp trace).events →
      m = self.msg ∧ r = [Jid.mk self.«to»] := by
  intro trace
  induction trace with
  | nil => intro mp m r ep h; simp [encryptedSendLoop] at h
  | cons o rest ih =>
      intro mp m r ep h
      cases o with
      | ok envelope =>
          simp [encryptedSendLoop] at h
          exact ⟨h.1, h.2.1⟩
      | undecided b d ik =>
          simp [encryptedSendLoop] at h
          rcases h with ⟨h1, h2, _⟩ | h
          · exact ⟨h1, h2⟩
          · exact ih mp m r ep h
      | prepareFailed errs =>
          simp [encryptedSendLoop, List.mem_append] at h
          rcases h with ⟨h1, h2, _⟩ | h | h
          · exact ⟨h1, h2⟩
          · exact absurd h (encryptCall_not_mem_prepAdvisories errs m r ep)
          · exact ih (updateProblems mp errs) m r ep h
      | iqFailure s =>
          simp [encryptedSendLoop] at h
          exact ⟨h.1, h.2.1⟩
      | otherExn s =>
          simp [encryptedSendLoop] at h
          exact ⟨h.1, h.2.1⟩

/-- C9: the recipient and the plaintext are immutable for the run — every
`encrypt_message` call in any run, on any retry path, is for the plaintext
given at construction and the single-element recipient list built from the
recipient given at construction. -/
theorem encrypt_args_immutable (self : SendMsg) (mech : String)
    (trace : List EncOutcome) (m : String) (r : List Jid)
    (ep : List (Jid × List Nat))
    (h : Event.encryptCall m r ep ∈ (encrypted_send self mech trace).events) :
    m = self.msg ∧ r = [Jid.mk self.«to»] :=
  encryptCall_args_loop self _ trace [] m r ep h

/-- Witness for `encrypt_args_immutable` at a concrete run. -/
theorem encrypt_args_immutable_witness :
    (Event.encryptCall "hello" [Jid.mk "r@x"] [] ∈
      (encrypted_send (SendMsg.mk "r@x" "hello") "OMEMO"
        [EncOutcome.ok "env"]).events) ∧
    ("hello" = (SendMsg.mk "r@x" "hello").msg ∧
      [Jid.mk "r@x"] = [Jid.mk (SendMsg.mk "r@x" "hello").«to»]) :=
  ⟨by decide,
    encrypt_args_immutable (SendMsg.mk "r@x" "hello") "OMEMO"
      [EncOutcome.ok "env"] "hello" [Jid.mk "r@x"] [] (by decide)⟩

theorem pending_after_trust (u trusted : List Nat) (d : Nat) :
    pending u (trusted ++ [d]) =
      (pending u trusted).filter (fun x => !(x == d)) := by
  unfold pending
  rw [List.filter_filter]
  apply List.filter_congr
  intro a _
  by_cases hmem : a ∈ trusted <;> by_cases hd : a = d <;>
    simp [hmem, hd, List.mem_append]

theorem pending_trust_lt (u trusted : List Nat) (d : Nat) (t : List Nat)
    (h : pending u trusted = d :: t) :
    (pending u (trusted ++ [d])).length < (pending u trusted).length := by
  rw [pending_after_trust, h]
  simp [List.filter_cons]
  calc (t.filter (fun x => !(x == d))).length
      ≤ t.length := List.length_filter_le _ _
    _ < t.length + 1 := Nat.lt_succ_self _

theorem healthyTrace_shape (bare : String) (ik : Nat → String)
    (u : List Nat) (fin : EncOutcome) :
    ∀ (fuel : Nat) (trusted : List Nat),
      (pending u trusted).length < fuel →
      ∃ ds : List Nat,
        healthyTrace bare ik u fin trusted fuel =
          ds.map (fun d => EncOutcome.undecided bare d (ik d)) ++ [fin] := by
  intro fuel
  induction fuel with
  | zero => intro trusted h; omega
  | succ n ih =>
      intro trusted h
      cases hp : pending u trusted with
      | nil => exact ⟨[], by simp [healthyTrace, hp]⟩
      | cons d t =>
          have hlt := pending_trust_lt u trusted d t hp
          rw [hp] at hlt h
          simp only [List.length_cons] at hlt h
          obtain ⟨ds, hds⟩ := ih (trusted ++ [d]) (by omega)
          exact ⟨d :: ds, by simp [healthyTrace, hp, hds]⟩

theorem loop_undecided_prefix (self : SendMsg) (base : Stanza)
    (bare : String) (ik : Nat → String) (fin : EncOutcome) :
    ∀ (ds : List Nat) (m : List (Jid × List Nat)),
      (encryptedSendLoop self base m
          (ds.map (fun d => EncOutcome.undecided bare d (ik d)) ++
            [fin])).result =
        (encryptedSendLoop self base m [fin]).result := by
  intro ds
  induction ds with
  | nil => intro m; rfl
  | cons d ds ih => intro m; simpa [encryptedSendLoop] using ih m

theorem healthyTrace_length_le (bare : String) (ik : Nat → String)
    (u : List Nat) (fin : EncOutcome) :
    ∀ (fuel : Nat) (trusted : List Nat),
      (healthyTrace bare ik u fin trusted fuel).length ≤ fuel + 1 := by
  intro fuel
  induction fuel with
  | zero => intro trusted; simp [healthyTrace]
  | succ n ih =>
      intro trusted
      cases hp : pending u trusted with
      | nil => simp [healthyTrace, hp]
      | cons d t =>
          have := ih (trusted ++ [d])
          simp [healthyTrace, hp]
          omega

/-- C8: against a healthy mock provider — one that raises the
trust-undecided signal only for a device whose trust is still undecided
and unrecorded, and so honours each trust decision the workflow records —
a run over a recipient with finitely many undecided devices settles
(reaches the sent outcome or a non-trust failure) within
`|undecided| + 1` encryption attempts: the auto-trust retry loop cannot
iterate forever. -/
theorem healthy_provider_terminates (self : SendMsg) (mech bare : String)
    (ik : Nat → String) (u : List Nat) (fin : EncOutcome)
    (hfin : fin.isTerminal = true) :
    ((encrypted_send self mech
        (healthyTrace bare ik u fin [] (u.length + 1))).result).isSettled =
        true ∧
    (healthyTrace bare ik u fin [] (u.length + 1)).length ≤ u.length + 2 := by
  constructor
  · have hlen : (pending u []).length < u.length + 1 :=
      Nat.lt_succ_of_le (List.length_filter_le _ _)
    obtain ⟨ds, hds⟩ :=
      healthyTrace_shape bare ik u fin (u.length + 1) [] hlen
    rw [encrypted_send, hds, loop_undecided_prefix]
    cases fin <;> simp_all [EncOutcome.isTerminal] <;>
      simp [encryptedSendLoop, SendResult.isSettled]
  · exact healthyTrace_length_le bare ik u fin (u.length + 1) []

/-- Witness for `healthy_provider_terminates`: two undecided devices,
terminal outcome success. -/
theorem healthy_provider_terminates_witness :
    (EncOutcome.ok "env").isTerminal = true ∧
    (((encrypted_send (SendMsg.mk "r@x" "m") "OMEMO"
        (healthyTrace "r@x" (fun _ => "ik") [1, 2] (EncOutcome.ok "env") []
          ([1, 2].length + 1))).result).isSettled = true ∧
      (healthyTrace "r@x" (fun _ => "ik") [1, 2] (EncOutcome.ok "env") []
          ([1, 2].length + 1)).length ≤ [1, 2].length + 2) :=
  ⟨rfl, healthy_provider_terminates (SendMsg.mk "r@x" "m") "OMEMO" "r@x"
    (fun _ => "ik") [1, 2] (EncOutcome.ok "env") rfl⟩
